import Mathlib

/-!
# Verification of the Telegram Mini App initData validator

A shallow embedding of `src/worker/src/index.js` (a Cloudflare Worker that
validates Telegram Mini App `initData`), together with proofs and refutations
of the frozen specification claims.

Conventions of the embedding:
* JS strings are Lean `String`s; where the source manipulates UTF-16 code
  units (`charCodeAt`, string `<`), we convert with `utf16Units`.
* Byte sequences (`Uint8Array`) are `List Nat` with entries below 256.
* Machine integers are `Nat`/`Int` with explicit `% 2^32` where the 32-bit
  arithmetic of SHA-256 overflows.
* The Web Crypto primitive `crypto.subtle` (HMAC-SHA256) is not repository
  code; it is modelled by an executable FIPS-180-4 / RFC-2104 implementation
  (`sha256`, `hmacSha256`) so that every verification step computes.
-/

set_option maxRecDepth 100000

/-! ## 32-bit words and SHA-256 (model of the `crypto.subtle` HMAC-SHA256 primitive) -/

/-- Truncation to a 32-bit word. -/
def w32 (n : Nat) : Nat := n % 4294967296

/-- Right rotation of a 32-bit word. -/
def rotr32 (n x : Nat) : Nat := w32 ((x >>> n) ||| (x <<< (32 - n)))

/-- SHA-256 choice function `Ch(x,y,z)`. -/
def shaCh (x y z : Nat) : Nat := (x &&& y) ^^^ ((x ^^^ 4294967295) &&& z)

/-- SHA-256 majority function `Maj(x,y,z)`. -/
def shaMaj (x y z : Nat) : Nat := (x &&& y) ^^^ (x &&& z) ^^^ (y &&& z)

/-- SHA-256 `Σ₀`. -/
def bigSigma0 (x : Nat) : Nat := rotr32 2 x ^^^ rotr32 13 x ^^^ rotr32 22 x

/-- SHA-256 `Σ₁`. -/
def bigSigma1 (x : Nat) : Nat := rotr32 6 x ^^^ rotr32 11 x ^^^ rotr32 25 x

/-- SHA-256 `σ₀`. -/
def smallSigma0 (x : Nat) : Nat := rotr32 7 x ^^^ rotr32 18 x ^^^ (x >>> 3)

/-- SHA-256 `σ₁`. -/
def smallSigma1 (x : Nat) : Nat := rotr32 17 x ^^^ rotr32 19 x ^^^ (x >>> 10)

/-- The eight 32-bit words of SHA-256 working state. -/
structure Sha256State where
  a : Nat
  b : Nat
  c : Nat
  d : Nat
  e : Nat
  f : Nat
  g : Nat
  h : Nat
deriving Repr, DecidableEq

/-- The SHA-256 round constants (FIPS 180-4 §4.2.2). -/
def shaK : List Nat :=
  [1116352408, 1899447441, 3049323471, 3921009573,
   961987163, 1508970993, 2453635748, 2870763221,
   3624381080, 310598401, 607225278, 1426881987,
   1925078388, 2162078206, 2614888103, 3248222580,
   3835390401, 4022224774, 264347078, 604807628,
   770255983, 1249150122, 1555081692, 1996064986,
   2554220882, 2821834349, 2952996808, 3210313671,
   3336571891, 3584528711, 113926993, 338241895,
   666307205, 773529912, 1294757372, 1396182291,
   1695183700, 1986661051, 2177026350, 2456956037,
   2730485921, 2820302411, 3259730800, 3345764771,
   3516065817, 3600352804, 4094571909, 275423344,
   430227734, 506948616, 659060556, 883997877,
   958139571, 1322822218, 1537002063, 1747873779,
   1955562222, 2024104815, 2227730452, 2361852424,
   2428436474, 2756734187, 3204031479, 3329325298]

/-- The SHA-256 initial hash value (FIPS 180-4 §5.3.3). -/
def shaInitState : Sha256State :=
  ⟨1779033703, 3144134277, 1013904242, 2773480762, 1359893119, 2600822924, 528734635, 1541459225⟩

/-- One SHA-256 round, consuming a (round constant, schedule word) pair. -/
def shaRound (st : Sha256State) (kw : Nat × Nat) : Sha256State :=
  let t1 := w32 (st.h + bigSigma1 st.e + shaCh st.e st.f st.g + kw.1 + kw.2)
  let t2 := w32 (bigSigma0 st.a + shaMaj st.a st.b st.c)
  ⟨w32 (t1 + t2), st.a, st.b, st.c, w32 (st.d + t1), st.e, st.f, st.g⟩

/-- Big-endian 32-bit words from a byte list (groups of four; a trailing
fragment shorter than four bytes is dropped — never hit on padded input). -/
def toWords : List Nat → List Nat
  | b0 :: b1 :: b2 :: b3 :: rest =>
      ((b0 <<< 24) + (b1 <<< 16) + (b2 <<< 8) + b3) :: toWords rest
  | _ => []

/-- Extend the reversed message schedule by `n` further words; the head of the
accumulator is the most recent word `w[i-1]`. -/
def extendSchedule : Nat → List Nat → List Nat
  | 0, rws => rws.reverse
  | n + 1, rws =>
      extendSchedule n
        (w32 (rws.getD 15 0 + smallSigma0 (rws.getD 14 0) + rws.getD 6 0 +
              smallSigma1 (rws.getD 1 0)) :: rws)

/-- The 64-word message schedule of a 64-byte block. -/
def shaSchedule (block : List Nat) : List Nat := extendSchedule 48 (toWords block).reverse

/-- Pointwise 32-bit addition of two hash states. -/
def shaAdd (s t : Sha256State) : Sha256State :=
  ⟨w32 (s.a + t.a), w32 (s.b + t.b), w32 (s.c + t.c), w32 (s.d + t.d),
   w32 (s.e + t.e), w32 (s.f + t.f), w32 (s.g + t.g), w32 (s.h + t.h)⟩

/-- SHA-256 compression of one 64-byte block. -/
def shaCompress (st : Sha256State) (block : List Nat) : Sha256State :=
  shaAdd st ((shaK.zip (shaSchedule block)).foldl shaRound st)

/-- Split a byte list into 64-byte blocks; `fuel` bounds the recursion and
is instantiated with the byte count, which suffices since every step
consumes at least one byte. -/
def shaBlocksLoop : Nat → List Nat → List (List Nat)
  | 0, _ => []
  | _, [] => []
  | fuel + 1, l@(_ :: _) => l.take 64 :: shaBlocksLoop fuel (l.drop 64)

/-- Split a byte list into 64-byte blocks. -/
def shaBlocks (l : List Nat) : List (List Nat) := shaBlocksLoop l.length l

/-- Big-endian bytes of a 32-bit word. -/
def be32 (w : Nat) : List Nat :=
  [(w >>> 24) &&& 255, (w >>> 16) &&& 255, (w >>> 8) &&& 255, w &&& 255]

/-- Big-endian bytes of a 64-bit length. -/
def be64 (n : Nat) : List Nat :=
  [(n >>> 56) &&& 255, (n >>> 48) &&& 255, (n >>> 40) &&& 255, (n >>> 32) &&& 255,
   (n >>> 24) &&& 255, (n >>> 16) &&& 255, (n >>> 8) &&& 255, n &&& 255]

/-- SHA-256 padding: `0x80`, zeros to 56 mod 64, then the bit length. -/
def shaPad (msg : List Nat) : List Nat :=
  let len := msg.length
  let zeros := (64 - ((len + 9) % 64)) % 64
  msg ++ 128 :: (List.replicate zeros 0 ++ be64 (8 * len))

/-- SHA-256 of a byte list, as 32 bytes.  Modelled from the spec: the worker
delegates hashing to the platform primitive `crypto.subtle` with
`{ name: "HMAC", hash: "SHA-256" }`; this is the FIPS 180-4 function that
primitive computes. -/
def sha256 (msg : List Nat) : List Nat :=
  let fin := (shaBlocks (shaPad msg)).foldl shaCompress shaInitState
  be32 fin.a ++ be32 fin.b ++ be32 fin.c ++ be32 fin.d ++
  be32 fin.e ++ be32 fin.f ++ be32 fin.g ++ be32 fin.h

/-- HMAC-SHA256 (RFC 2104) of a message under a key, as 32 bytes.  Modelled
from the spec: this is what `crypto.subtle.importKey` + `crypto.subtle.sign`
with `"HMAC"`/`"SHA-256"` compute in the worker. -/
def hmacSha256 (key msg : List Nat) : List Nat :=
  let k0 := if 64 < key.length then sha256 key else key
  let kp := k0 ++ List.replicate (64 - k0.length) 0
  sha256 ((kp.map (fun b => b ^^^ 0x5c)) ++ sha256 ((kp.map (fun b => b ^^^ 0x36)) ++ msg))

/-! ## String encodings -/

/-- UTF-8 bytes of one character. -/
def utf8Char (c : Char) : List Nat :=
  let n := c.toNat
  if n < 0x80 then [n]
  else if n < 0x800 then [0xc0 ||| (n >>> 6), 0x80 ||| (n &&& 0x3f)]
  else if n < 0x10000 then
    [0xe0 ||| (n >>> 12), 0x80 ||| ((n >>> 6) &&& 0x3f), 0x80 ||| (n &&& 0x3f)]
  else
    [0xf0 ||| (n >>> 18), 0x80 ||| ((n >>> 12) &&& 0x3f),
     0x80 ||| ((n >>> 6) &&& 0x3f), 0x80 ||| (n &&& 0x3f)]

/-- `encodeUtf8` from the source: `new TextEncoder().encode(s)`. -/
def encodeUtf8 (s : String) : List Nat := (s.data.map utf8Char).flatten

/-- UTF-16 code units of one character (as used by JS `charCodeAt`, string
`length` and string comparison). -/
def utf16Char (c : Char) : List Nat :=
  let n := c.toNat
  if n < 0x10000 then [n]
  else [0xd800 + (n - 0x10000) / 0x400, 0xdc00 + (n - 0x10000) % 0x400]

/-- UTF-16 code units of a string. -/
def utf16Units (s : String) : List Nat := (s.data.map utf16Char).flatten

/-- One lowercase hex digit. -/
def hexDigitChar (n : Nat) : Char :=
  if n < 10 then Char.ofNat (48 + n) else Char.ofNat (87 + n)

/-- Two lowercase hex digits of a byte: `b.toString(16).padStart(2, "0")`
for `b < 256`. -/
def byteHex (b : Nat) : List Char := [hexDigitChar (b / 16 % 16), hexDigitChar (b % 16)]

/-- `toHex` from the source: lowercase hex of a byte array. -/
def toHex (bytes : List Nat) : String := ⟨(bytes.map byteHex).flatten⟩

/-- `telegramWebAppSecretKey` from the source: HMAC-SHA256 keyed by the bot
token over the literal message `"WebAppData"`. -/
def telegramWebAppSecretKey (botToken : String) : List Nat :=
  hmacSha256 (encodeUtf8 botToken) (encodeUtf8 "WebAppData")

/-- `hmacHex` from the source: lowercase hex of HMAC-SHA256 of `data` under
`keyBytes`. -/
def hmacHex (keyBytes : List Nat) (data : String) : String :=
  toHex (hmacSha256 keyBytes (encodeUtf8 data))

/-! ## `URLSearchParams` parsing (`parseInitData`)

The source's `parseInitData` is `new URLSearchParams(initData)`: the WHATWG
`application/x-www-form-urlencoded` parser.  A leading `?` is stripped, the
UTF-8 encoding of the input is split on `&`, empty pieces are skipped, each
piece is split at its first `=` into name/value, `+` becomes space, percent
escapes are decoded as bytes, and both sides are UTF-8-decoded with U+FFFD
replacement of invalid sequences. -/

/-- Is a byte an ASCII hex digit? -/
def isHexByte (b : Nat) : Bool :=
  (48 ≤ b && b ≤ 57) || (65 ≤ b && b ≤ 70) || (97 ≤ b && b ≤ 102)

/-- Value of an ASCII hex digit byte. -/
def hexByteVal (b : Nat) : Nat :=
  if b ≤ 57 then b - 48 else if b ≤ 70 then b - 55 else b - 87

/-- Percent-decode a byte sequence: `%XY` with two hex digits becomes one
byte; any other `%` is literal. -/
def percentDecode : List Nat → List Nat
  | 37 :: a :: b :: rest =>
      if isHexByte a && isHexByte b then (16 * hexByteVal a + hexByteVal b) :: percentDecode rest
      else 37 :: percentDecode (a :: b :: rest)
  | b :: rest => b :: percentDecode rest
  | [] => []

/-- The Unicode replacement character U+FFFD. -/
def replacementChar : Char := Char.ofNat 0xfffd

/-- UTF-8 decoding with U+FFFD replacement of invalid sequences, following
the WHATWG decoder ranges (overlong forms and surrogates rejected).  `fuel`
bounds recursion; it is called with the byte count, which suffices since
every step consumes at least one byte. -/
def utf8DecodeLoop : Nat → List Nat → List Char
  | _, [] => []
  | 0, _ => []
  | fuel + 1, b :: rest =>
    if b < 0x80 then Char.ofNat b :: utf8DecodeLoop fuel rest
    else if 0xc2 ≤ b && b ≤ 0xdf then
      match rest with
      | [] => [replacementChar]
      | c1 :: rest1 =>
        if 0x80 ≤ c1 && c1 ≤ 0xbf then
          Char.ofNat (((b - 0xc0) <<< 6) + (c1 - 0x80)) :: utf8DecodeLoop fuel rest1
        else replacementChar :: utf8DecodeLoop fuel rest
    else if 0xe0 ≤ b && b ≤ 0xef then
      match rest with
      | [] => [replacementChar]
      | c1 :: rest1 =>
        let lo1 := if b = 0xe0 then 0xa0 else 0x80
        let hi1 := if b = 0xed then 0x9f else 0xbf
        if lo1 ≤ c1 && c1 ≤ hi1 then
          match rest1 with
          | [] => [replacementChar]
          | c2 :: rest2 =>
            if 0x80 ≤ c2 && c2 ≤ 0xbf then
              Char.ofNat (((b - 0xe0) <<< 12) + ((c1 - 0x80) <<< 6) + (c2 - 0x80)) ::
                utf8DecodeLoop fuel rest2
            else replacementChar :: utf8DecodeLoop fuel rest1
        else replacementChar :: utf8DecodeLoop fuel rest
    else if 0xf0 ≤ b && b ≤ 0xf4 then
      match rest with
      | [] => [replacementChar]
      | c1 :: rest1 =>
        let lo1 := if b = 0xf0 then 0x90 else 0x80
        let hi1 := if b = 0xf4 then 0x8f else 0xbf
        if lo1 ≤ c1 && c1 ≤ hi1 then
          match rest1 with
          | [] => [replacementChar]
          | c2 :: rest2 =>
            if 0x80 ≤ c2 && c2 ≤ 0xbf then
              match rest2 with
              | [] => [replacementChar]
              | c3 :: rest3 =>
                if 0x80 ≤ c3 && c3 ≤ 0xbf then
                  Char.ofNat (((b - 0xf0) <<< 18) + ((c1 - 0x80) <<< 12) +
                              ((c2 - 0x80) <<< 6) + (c3 - 0x80)) :: utf8DecodeLoop fuel rest3
                else replacementChar :: utf8DecodeLoop fuel rest2
            else replacementChar :: utf8DecodeLoop fuel rest1
        else replacementChar :: utf8DecodeLoop fuel rest
    else replacementChar :: utf8DecodeLoop fuel rest

/-- UTF-8 decode a byte list to a string, with replacement. -/
def utf8Decode (bs : List Nat) : String := ⟨utf8DecodeLoop bs.length bs⟩

/-- Split a urlencoded piece at its first `=` byte into (name, value); a
piece without `=` is all name, empty value. -/
def splitKV : List Nat → List Nat × List Nat
  | [] => ([], [])
  | 61 :: rest => ([], rest)
  | b :: rest =>
      let kv := splitKV rest
      (b :: kv.1, kv.2)

/-- Decode one side of a pair: `+` → space, percent-decode, UTF-8 decode. -/
def decodeSide (bs : List Nat) : String :=
  utf8Decode (percentDecode (bs.map (fun b => if b = 43 then 32 else b)))

/-- `parseInitData` from the source: `new URLSearchParams(initData)`,
viewed as its ordered entry list. -/
def parseInitData (initData : String) : List (String × String) :=
  let chars := match initData.data with
    | '?' :: rest => rest
    | l => l
  let bytes := (chars.map utf8Char).flatten
  (bytes.splitOn 38).filterMap (fun piece =>
    if piece.isEmpty then none
    else
      let kv := splitKV piece
      some (decodeSide kv.1, decodeSide kv.2))

/-- `URLSearchParams.get`: the value of the first pair with the given name,
or null (`none`). -/
def jsGet (params : List (String × String)) (k : String) : Option String :=
  (params.find? (fun p => p.1 == k)).map Prod.snd

/-! ## JSON (`JSON.parse`)

The source parses the `user` field with the platform primitive `JSON.parse`.
Modelled from the spec ("a JSON-encoded object string"): an executable
recursive-descent parser of the JSON grammar (ECMA-404).  Numbers keep their
lexeme (their numeric value is never computed by the worker); a `\u` escape
that is a lone surrogate is replaced by U+FFFD, since Lean characters are
Unicode scalar values. -/

/-- A JSON value. -/
inductive Json where
  | null : Json
  | bool (b : Bool) : Json
  | num (lexeme : String) : Json
  | str (s : String) : Json
  | arr (elems : List Json) : Json
  | obj (fields : List (String × Json)) : Json
deriving Repr

/-- JSON insignificant whitespace. -/
def jsonWs (c : Char) : Bool := c == ' ' || c == '\t' || c == '\n' || c == '\r'

/-- ASCII decimal digit. -/
def isDigitChar (c : Char) : Bool := 48 ≤ c.toNat && c.toNat ≤ 57

/-- ASCII hex digit. -/
def isHexChar (c : Char) : Bool := isHexByte c.toNat

/-- Parse exactly four hex digits. -/
def parseHex4 : List Char → Option (Nat × List Char)
  | a :: b :: c :: d :: rest =>
      if isHexChar a && isHexChar b && isHexChar c && isHexChar d then
        some (((hexByteVal a.toNat * 16 + hexByteVal b.toNat) * 16 + hexByteVal c.toNat) * 16 +
              hexByteVal d.toNat, rest)
      else none
  | _ => none

/-- Parse the body of a JSON string (after the opening quote), accumulating
characters in reverse. -/
def parseStringBody : Nat → List Char → List Char → Option (String × List Char)
  | 0, _, _ => none
  | _, [], _ => none
  | fuel + 1, c :: rest, acc =>
    if c == '"' then some (⟨acc.reverse⟩, rest)
    else if c == '\\' then
      match rest with
      | [] => none
      | e :: rest1 =>
        if e == '"' then parseStringBody fuel rest1 ('"' :: acc)
        else if e == '\\' then parseStringBody fuel rest1 ('\\' :: acc)
        else if e == '/' then parseStringBody fuel rest1 ('/' :: acc)
        else if e == 'b' then parseStringBody fuel rest1 (Char.ofNat 8 :: acc)
        else if e == 'f' then parseStringBody fuel rest1 (Char.ofNat 12 :: acc)
        else if e == 'n' then parseStringBody fuel rest1 ('\n' :: acc)
        else if e == 'r' then parseStringBody fuel rest1 ('\r' :: acc)
        else if e == 't' then parseStringBody fuel rest1 ('\t' :: acc)
        else if e == 'u' then
          match parseHex4 rest1 with
          | none => none
          | some (n, rest2) =>
            if 0xd800 ≤ n && n ≤ 0xdbff then
              match rest2 with
              | '\\' :: 'u' :: rest3 =>
                match parseHex4 rest3 with
                | some (m, rest4) =>
                  if 0xdc00 ≤ m && m ≤ 0xdfff then
                    parseStringBody fuel rest4
                      (Char.ofNat (0x10000 + (n - 0xd800) * 0x400 + (m - 0xdc00)) :: acc)
                  else parseStringBody fuel rest2 (replacementChar :: acc)
                | none => parseStringBody fuel rest2 (replacementChar :: acc)
              | _ => parseStringBody fuel rest2 (replacementChar :: acc)
            else if 0xdc00 ≤ n && n ≤ 0xdfff then
              parseStringBody fuel rest2 (replacementChar :: acc)
            else parseStringBody fuel rest2 (Char.ofNat n :: acc)
        else none
    else if c.toNat < 0x20 then none
    else parseStringBody fuel rest (c :: acc)

/-- Parse a JSON number, returning its lexeme. -/
def parseNumber (cs : List Char) : Option (String × List Char) :=
  let signAndRest : List Char × List Char :=
    match cs with
    | '-' :: rest => (['-'], rest)
    | l => ([], l)
  let intAndRest : Option (List Char × List Char) :=
    match signAndRest.2 with
    | '0' :: rest => some (['0'], rest)
    | c :: rest =>
      if isDigitChar c && c != '0' then
        let digits := rest.takeWhile isDigitChar
        some (c :: digits, rest.dropWhile isDigitChar)
      else none
    | [] => none
  match intAndRest with
  | none => none
  | some (intPart, afterInt) =>
    let fracAndRest : Option (List Char × List Char) :=
      match afterInt with
      | '.' :: rest =>
        let digits := rest.takeWhile isDigitChar
        if digits.isEmpty then none else some ('.' :: digits, rest.dropWhile isDigitChar)
      | l => some ([], l)
    match fracAndRest with
    | none => none
    | some (fracPart, afterFrac) =>
      let expAndRest : Option (List Char × List Char) :=
        match afterFrac with
        | c :: rest =>
          if c == 'e' || c == 'E' then
            let signedRest : List Char × List Char :=
              match rest with
              | s :: rest2 => if s == '+' || s == '-' then ([s], rest2) else ([], rest)
              | [] => ([], [])
            let digits := signedRest.2.takeWhile isDigitChar
            if digits.isEmpty then none
            else some (c :: (signedRest.1 ++ digits), signedRest.2.dropWhile isDigitChar)
          else some ([], c :: rest)
        | [] => some ([], [])
      match expAndRest with
      | none => none
      | some (expPart, afterExp) =>
        some (⟨signAndRest.1 ++ intPart ++ fracPart ++ expPart⟩, afterExp)

mutual

/-- Parse a JSON value (leading whitespace allowed). -/
def parseJsonValue : Nat → List Char → Option (Json × List Char)
  | 0, _ => none
  | fuel + 1, cs =>
    match cs.dropWhile jsonWs with
    | [] => none
    | c :: rest =>
      if c == '{' then parseObjFields fuel rest true []
      else if c == '[' then parseArrElems fuel rest true []
      else if c == '"' then (parseStringBody (fuel + 1) rest []).map (fun p => (Json.str p.1, p.2))
      else if c == 't' then
        match rest with
        | 'r' :: 'u' :: 'e' :: r => some (Json.bool true, r)
        | _ => none
      else if c == 'f' then
        match rest with
        | 'a' :: 'l' :: 's' :: 'e' :: r => some (Json.bool false, r)
        | _ => none
      else if c == 'n' then
        match rest with
        | 'u' :: 'l' :: 'l' :: r => some (Json.null, r)
        | _ => none
      else (parseNumber (c :: rest)).map (fun p => (Json.num p.1, p.2))

/-- Parse array elements after `[`. -/
def parseArrElems : Nat → List Char → Bool → List Json → Option (Json × List Char)
  | 0, _, _, _ => none
  | fuel + 1, cs, isFirst, acc =>
    match cs.dropWhile jsonWs with
    | [] => none
    | c :: rest =>
      if c == ']' then some (Json.arr acc.reverse, rest)
      else if isFirst then
        match parseJsonValue fuel cs with
        | none => none
        | some (v, r) => parseArrElems fuel r false [v]
      else if c == ',' then
        match parseJsonValue fuel rest with
        | none => none
        | some (v, r) => parseArrElems fuel r false (v :: acc)
      else none

/-- Parse object members after `{`. -/
def parseObjFields : Nat → List Char → Bool → List (String × Json) →
    Option (Json × List Char)
  | 0, _, _, _ => none
  | fuel + 1, cs, isFirst, acc =>
    match cs.dropWhile jsonWs with
    | [] => none
    | c :: rest =>
      if c == '}' then some (Json.obj acc.reverse, rest)
      else if isFirst && c == '"' then parseObjMember fuel rest acc
      else if !isFirst && c == ',' then
        match rest.dropWhile jsonWs with
        | '"' :: rest2 => parseObjMember fuel rest2 acc
        | _ => none
      else none

/-- Parse one object member starting after its opening quote. -/
def parseObjMember : Nat → List Char → List (String × Json) →
    Option (Json × List Char)
  | 0, _, _ => none
  | fuel + 1, cs, acc =>
    match parseStringBody (fuel + 1) cs [] with
    | none => none
    | some (k, r1) =>
      match r1.dropWhile jsonWs with
      | ':' :: r2 =>
        match parseJsonValue fuel r2 with
        | none => none
        | some (v, r3) => parseObjFields fuel r3 false ((k, v) :: acc)
      | _ => none

end

/-- `JSON.parse`: the whole input must be one JSON text. -/
def jsonParse (s : String) : Option Json :=
  match parseJsonValue (4 * s.length + 4) s.data with
  | none => none
  | some (v, rest) => if (rest.dropWhile jsonWs).isEmpty then some v else none

/-- JS property read `u[k]` on a parsed JSON value: objects give their last
binding for `k` (later duplicate keys win in `JSON.parse`); reads on any
non-object give `undefined` (`none`). -/
def jsLookup (u : Json) (k : String) : Option Json :=
  match u with
  | Json.obj fields => (fields.reverse.find? (fun f => f.1 == k)).map Prod.snd
  | _ => none

/-- Does a JSON number lexeme denote zero (all mantissa digits 0)? -/
def numLexemeIsZero (lexeme : String) : Bool :=
  let noSign := lexeme.data.dropWhile (fun c => c == '-')
  let mantissa := noSign.takeWhile (fun c => !(c == 'e' || c == 'E'))
  mantissa.all (fun c => c == '0' || c == '.')

/-- JS truthiness of a parsed JSON value. -/
def jsTruthy (v : Json) : Bool :=
  match v with
  | Json.null => false
  | Json.bool b => b
  | Json.num lexeme => !numLexemeIsZero lexeme
  | Json.str s => !(s == "")
  | Json.arr _ => true
  | Json.obj _ => true

/-! ## Canonical string (`buildDataCheckString`)

The source collects every non-`hash` entry, sorts with the comparator
`(a, b) => (a[0] < b[0] ? -1 : a[0] > b[0] ? 1 : 0)` — a comparison of the
keys alone, by UTF-16 code units — and joins `k=v` lines with `\n`.
`Array.prototype.sort` with a consistent comparator is specified to produce
a stable sort; `List.insertionSort` with the matching non-strict key order
is exactly that stable sort. -/

/-- Key order used by the sort comparator: JS string `<`, i.e. lexicographic
on UTF-16 code units. -/
def keyLe (a b : String) : Prop := utf16Units a ≤ utf16Units b

instance keyLeDecidable : DecidableRel keyLe :=
  fun a b => inferInstanceAs (Decidable (utf16Units a ≤ utf16Units b))

/-- The comparator's order lifted to entry pairs (keys only). -/
def entryLe (p q : String × String) : Prop := keyLe p.1 q.1

instance entryLeDecidable : DecidableRel entryLe :=
  fun p q => inferInstanceAs (Decidable (keyLe p.1 q.1))

/-- The strict version of the comparator order (used to state uniqueness of
the sorted result when keys are distinct). -/
def entryLt (p q : String × String) : Prop := utf16Units p.1 < utf16Units q.1

instance entryLeTotal : IsTotal (String × String) entryLe :=
  ⟨fun p q => le_total (utf16Units p.1) (utf16Units q.1)⟩

instance entryLeTrans : IsTrans (String × String) entryLe :=
  ⟨fun _ _ _ h1 h2 => le_trans h1 h2⟩

instance entryLtAntisymm : IsAntisymm (String × String) entryLt :=
  ⟨fun _ _ h1 h2 => absurd h2 (lt_asymm h1)⟩

/-- `buildDataCheckString` from the source. -/
def buildDataCheckString (params : List (String × String)) : String :=
  let entries := params.filter (fun p => !(p.1 == "hash"))
  let sorted := List.insertionSort entryLe entries
  String.intercalate "\n" (sorted.map (fun p => p.1 ++ "=" ++ p.2))

/-! ## Constant-time comparison (`timingSafeEqual`) -/

/-- The loop of `timingSafeEqual`, instrumented: folds the OR of XORs over
the positions and counts how many positions the loop inspects. -/
def timingSafeLoop (ua ub : List Nat) : Nat × Nat :=
  (ua.zip ub).foldl (fun acc p => (acc.1 ||| (p.1 ^^^ p.2), acc.2 + 1)) (0, 0)

/-- `timingSafeEqual` from the source: false on length mismatch, otherwise
`res === 0` where `res` ORs together the XOR of every pair of code units. -/
def timingSafeEqual (a b : String) : Bool :=
  let ua := utf16Units a
  let ub := utf16Units b
  if ua.length ≠ ub.length then false
  else (timingSafeLoop ua ub).1 == 0

/-! ## `Number()` coercion for `auth_date` -/

/-- JS whitespace trimmed by `Number()`. -/
def jsSpace (c : Char) : Bool :=
  c.toNat == 32 || c.toNat == 9 || c.toNat == 10 || c.toNat == 13 || c.toNat == 11 ||
  c.toNat == 12 || c.toNat == 0xa0 || c.toNat == 0xfeff || c.toNat == 0x2028 || c.toNat == 0x2029

/-- `Number(s)`, modelled from the spec ("an integer Unix timestamp"): after
trimming JS whitespace, the empty string coerces to 0 and an optionally
signed decimal integer numeral to its value; every other numeral form
(fractions, exponents, hex, `Infinity`, garbage) is modelled as NaN
(`none`).  The worker only compares this number, and `auth_date` is an
integer timestamp, so the narrowed domain covers every claim. -/
def jsNumber (s : String) : Option Int :=
  let t := ((s.data.dropWhile jsSpace).reverse.dropWhile jsSpace).reverse
  let digitsVal : List Char → Option Int := fun ds =>
    if ds.isEmpty || !ds.all isDigitChar then none
    else some (Int.ofNat (ds.foldl (fun n c => 10 * n + (c.toNat - 48)) 0))
  match t with
  | [] => some 0
  | '-' :: ds => (digitsVal ds).map (fun v => -v)
  | '+' :: ds => digitsVal ds
  | ds => digitsVal ds

/-! ## The validator (`handleValidate`) -/

/-- `VALID_AUTH_WINDOW` from the source: data is valid for 300 seconds. -/
def VALID_AUTH_WINDOW : Int := 300

/-- Outcome of one validation, as the worker's JSON response body: the
`error` codes, or `ok: true` with the extracted user claims and the parsed
`auth_date` (`none` marking NaN).  `INVALID_JSON` / `INIT_DATA_REQUIRED`
concern the HTTP request envelope, which is transport glue outside the
verification core. -/
inductive VResult where
  | serverConfigError : VResult
  | hashMissing : VResult
  | dataExpired : VResult
  | invalidSignature : VResult
  | ok (user : Option (List (String × Json))) (authDate : Option Int) : VResult
deriving Repr

/-- The replay-protection test `now - authDate > VALID_AUTH_WINDOW`; when
`authDate` is NaN the comparison is false, so the payload is not expired. -/
def isExpired (now : Int) (authDate : Option Int) : Bool :=
  match authDate with
  | some a => VALID_AUTH_WINDOW < now - a
  | none => false

/-- The `auth_date` numeral handed to `Number()`:
`parsed.get("auth_date") || "0"`, where `||` substitutes `"0"` for a missing
or empty (falsy) value. -/
def authDateRaw (params : List (String × String)) : String :=
  match jsGet params "auth_date" with
  | some v => if v = "" then "0" else v
  | none => "0"

/-- The allowlisted claim fields of the response's `user` object, in the
order of the object literal in the source. -/
def userClaimFields : List String := ["id", "first_name", "last_name", "username", "language_code"]

/-- The `user` object of an `ok` response: each allowlisted field read off
the parsed `user` value.  A field absent from the parsed value is `undefined`
in the object literal and is therefore omitted by `JSON.stringify` when the
response body is rendered. -/
def extractUser (u : Json) : List (String × Json) :=
  userClaimFields.filterMap (fun k => (jsLookup u k).map (fun v => (k, v)))

/-- The `user` claims of the response: `null` when the `user` field is
missing or falsy, when `JSON.parse` throws (caught, degrading to `null`),
or when the parsed value is falsy; otherwise the allowlisted extraction. -/
def userClaims (params : List (String × String)) : Option (List (String × Json)) :=
  match jsGet params "user" with
  | none => none
  | some us =>
    if us = "" then none
    else
      match jsonParse us with
      | none => none
      | some u => if jsTruthy u then some (extractUser u) else none

/-- The body of `handleValidate` after `parseInitData`, in source order:
missing hash, then the replay window, then the HMAC comparison, then claim
extraction. -/
def verifyParams (botToken : String) (now : Int) (params : List (String × String)) : VResult :=
  let hash := jsGet params "hash"
  let authDate := jsNumber (authDateRaw params)
  match hash with
  | none => VResult.hashMissing
  | some h =>
    if h = "" then VResult.hashMissing
    else if isExpired now authDate then VResult.dataExpired
    else
      let dataCheckString := buildDataCheckString params
      let secretKey := telegramWebAppSecretKey botToken
      let expectedHash := hmacHex secretKey dataCheckString
      if !timingSafeEqual h expectedHash then VResult.invalidSignature
      else VResult.ok (userClaims params) authDate

/-- `handleValidate` from the source, for a request that reached the
validation core: a falsy `BOT_TOKEN` is a server configuration error;
otherwise the parsed `initData` is validated. -/
def handleValidate (botToken : String) (now : Int) (initData : String) : VResult :=
  if botToken = "" then VResult.serverConfigError
  else verifyParams botToken now (parseInitData initData)

/-! ## Mutation model and concrete payloads used in refutations -/

/-- Is the outcome an `ok: true` (Accepted) response? -/
def isAccepted : VResult → Bool
  | VResult.ok _ _ => true
  | _ => false

/-- Replace the character at position `j` of a string. -/
def setCharAt (s : String) (j : Nat) (c : Char) : String := ⟨s.data.set j c⟩

/-- Mutate a single character of the value of the `i`-th field of a payload
(the key is untouched); out-of-range indices leave the payload unchanged. -/
def mutateValueChar (params : List (String × String)) (i j : Nat) (c : Char) :
    List (String × String) :=
  match params.get? i with
  | none => params
  | some p => params.set i (p.1, setCharAt p.2 j c)

/-- A bot token for the concrete instances (the spec §8 example secret). -/
def wTok : String := "testtoken"

/-- A signed payload body: `auth_date` 1700000000, a `query_id`, and a `user`
JSON object that also carries a non-allowlisted field. -/
def wBaseA : List (String × String) :=
  [("auth_date", "1700000000"), ("query_id", "AA"),
   ("user", "\x7b\"id\":1,\"first_name\":\"Ann\",\"is_premium\":true\x7d")]

/-- The trusted signer's hash over `wBaseA`'s canonical string. -/
def wHashA : String := hmacHex (telegramWebAppSecretKey wTok) (buildDataCheckString wBaseA)

/-- `wBaseA` as signed by the trusted signer. -/
def wParamsA : List (String × String) := wBaseA ++ [("hash", wHashA)]

/-- A signed payload whose `user` field is not valid JSON. -/
def wBase8 : List (String × String) :=
  [("auth_date", "1700000000"), ("user", "\x7boops")]

/-- The trusted signer's hash over `wBase8`'s canonical string. -/
def wHash8 : String := hmacHex (telegramWebAppSecretKey wTok) (buildDataCheckString wBase8)

/-- `wBase8` as signed by the trusted signer. -/
def wParams8 : List (String × String) := wBase8 ++ [("hash", wHash8)]

/-- A payload carrying a syntactically valid but forged hash. -/
def wParamsForged : List (String × String) :=
  [("auth_date", "1700000000"), ("hash", "deadbeef")]

/-! ## Helper lemmas -/

theorem toHex_data_length (bs : List Nat) : (toHex bs).data.length = 2 * bs.length := by
  induction bs with
  | nil => rfl
  | cons b bs ih =>
    simp only [toHex, List.map_cons, List.flatten_cons, byteHex] at ih ⊢
    simp only [List.length_append, List.length_cons, List.length_nil] at ih ⊢
    omega

theorem sha256_length (msg : List Nat) : (sha256 msg).length = 32 := by
  simp [sha256, be32]

theorem hmacHex_ne_empty (k : List Nat) (d : String) : hmacHex k d ≠ "" := by
  intro h
  have hlen := congrArg (fun s => s.data.length) h
  simp only [hmacHex, toHex_data_length] at hlen
  rw [hmacSha256, sha256_length] at hlen
  simp at hlen

theorem utf16Char_ne_nil (c : Char) : utf16Char c ≠ [] := by
  by_cases h : c.toNat < 0x10000 <;> simp [utf16Char, h]

theorem char_toNat_valid (c : Char) : c.toNat < 0xd800 ∨ (0xdfff < c.toNat ∧ c.toNat < 0x110000) := by
  rcases c.valid with h | ⟨h1, h2⟩
  · left
    exact h
  · right
    exact ⟨h1, h2⟩

theorem char_toNat_inj {c1 c2 : Char} (h : c1.toNat = c2.toNat) : c1 = c2 := by
  have := congrArg Char.ofNat h
  rwa [Char.ofNat_toNat, Char.ofNat_toNat] at this

theorem utf16_flatten_inj : ∀ l1 l2 : List Char,
    (l1.map utf16Char).flatten = (l2.map utf16Char).flatten → l1 = l2 := by
  intro l1
  induction l1 with
  | nil =>
    intro l2 h
    cases l2 with
    | nil => rfl
    | cons c l2 =>
      simp only [List.map_nil, List.flatten_nil, List.map_cons, List.flatten_cons] at h
      exact absurd (List.append_eq_nil.mp h.symm).1 (utf16Char_ne_nil c)
  | cons c1 t1 ih =>
    intro l2 h
    cases l2 with
    | nil =>
      simp only [List.map_nil, List.flatten_nil, List.map_cons, List.flatten_cons] at h
      exact absurd (List.append_eq_nil.mp h).1 (utf16Char_ne_nil c1)
    | cons c2 t2 =>
      simp only [List.map_cons, List.flatten_cons] at h
      have v1 := char_toNat_valid c1
      have v2 := char_toNat_valid c2
      unfold utf16Char at h
      by_cases s1 : c1.toNat < 0x10000 <;> by_cases s2 : c2.toNat < 0x10000 <;>
        simp only [s1, s2, if_pos, if_neg, List.cons_append, List.nil_append] at h
      · exact (List.cons.injEq _ _ _ _).mpr
          ⟨char_toNat_inj (List.head_eq_of_cons_eq h), ih t2 (List.tail_eq_of_cons_eq h)⟩
      · have h1 := List.head_eq_of_cons_eq h
        omega
      · have h1 := List.head_eq_of_cons_eq h
        omega
      · have h1 := List.head_eq_of_cons_eq h
        have h2 := List.head_eq_of_cons_eq (List.tail_eq_of_cons_eq h)
        have h3 := List.tail_eq_of_cons_eq (List.tail_eq_of_cons_eq h)
        have e1 : c1.toNat = c2.toNat := by omega
        exact (List.cons.injEq _ _ _ _).mpr ⟨char_toNat_inj e1, ih t2 h3⟩

theorem utf16Units_inj {a b : String} (h : utf16Units a = utf16Units b) : a = b := by
  have hd : a.data = b.data := utf16_flatten_inj a.data b.data h
  exact congrArg String.mk hd

theorem timingSafeLoop_fst : ∀ (l : List (Nat × Nat)) (r n : Nat),
    ((l.foldl (fun acc p => (acc.1 ||| (p.1 ^^^ p.2), acc.2 + 1)) (r, n)).1 =
      l.foldl (fun a p => a ||| (p.1 ^^^ p.2)) r) := by
  intro l
  induction l with
  | nil => intro r n; rfl
  | cons p l ih => intro r n; exact ih _ _

theorem timingSafeLoop_snd : ∀ (l : List (Nat × Nat)) (r n : Nat),
    ((l.foldl (fun acc p => (acc.1 ||| (p.1 ^^^ p.2), acc.2 + 1)) (r, n)).2 = n + l.length) := by
  intro l
  induction l with
  | nil => intro r n; rfl
  | cons p l ih =>
    intro r n
    rw [List.foldl_cons, ih, List.length_cons]
    omega

theorem nat_or_eq_zero_iff {a b : Nat} : a ||| b = 0 ↔ a = 0 ∧ b = 0 := by
  constructor
  · intro h
    have hbit : ∀ i, a.testBit i = false ∧ b.testBit i = false := by
      intro i
      have ht := congrArg (fun n => Nat.testBit n i) h
      simp only [Nat.testBit_or, Nat.zero_testBit] at ht
      exact Bool.or_eq_false_iff.mp ht
    constructor
    · exact Nat.eq_of_testBit_eq fun i => by simp [(hbit i).1, Nat.zero_testBit]
    · exact Nat.eq_of_testBit_eq fun i => by simp [(hbit i).2, Nat.zero_testBit]
  · rintro ⟨rfl, rfl⟩
    rfl

theorem orFold_eq_zero : ∀ (l : List (Nat × Nat)) (r : Nat),
    (l.foldl (fun a p => a ||| (p.1 ^^^ p.2)) r = 0 ↔ r = 0 ∧ ∀ p ∈ l, p.1 = p.2) := by
  intro l
  induction l with
  | nil => simp
  | cons p l ih =>
    intro r
    rw [List.foldl_cons, ih]
    rw [nat_or_eq_zero_iff, Nat.xor_eq_zero]
    constructor
    · rintro ⟨⟨h1, h2⟩, h3⟩
      refine ⟨h1, ?_⟩
      intro q hq
      rcases List.mem_cons.mp hq with h | h
      · rw [h]
        exact h2
      · exact h3 q h
    · rintro ⟨h1, h2⟩
      exact ⟨⟨h1, h2 p (List.mem_cons_self p l)⟩, fun q hq => h2 q (List.mem_cons_of_mem p hq)⟩

theorem zip_pointwise_eq : ∀ (l1 l2 : List Nat), l1.length = l2.length →
    (∀ p ∈ l1.zip l2, p.1 = p.2) → l1 = l2 := by
  intro l1
  induction l1 with
  | nil =>
    intro l2 hlen _
    exact (List.length_eq_zero.mp hlen.symm).symm
  | cons a l1 ih =>
    intro l2 hlen hall
    cases l2 with
    | nil => simp at hlen
    | cons b l2 =>
      have hab : a = b := hall (a, b) (by simp [List.zip_cons_cons])
      have htail : l1 = l2 := by
        refine ih l2 (by simpa using hlen) ?_
        intro p hp
        exact hall p (by simp [List.zip_cons_cons, hp])
      rw [hab, htail]

theorem zip_self_fst_eq_snd : ∀ (l : List Nat), ∀ p ∈ l.zip l, p.1 = p.2 := by
  intro l
  induction l with
  | nil => intro p hp; simp at hp
  | cons a l ih =>
    intro p hp
    rcases List.mem_cons.mp hp with h | h
    · rw [h]
    · exact ih p h

/-- The comparison returns true exactly on equal strings. -/
theorem timingSafeEqual_eq_iff (a b : String) : timingSafeEqual a b = true ↔ a = b := by
  unfold timingSafeEqual timingSafeLoop
  by_cases hlen : (utf16Units a).length = (utf16Units b).length
  · rw [if_neg (by simp [hlen])]
    rw [beq_iff_eq, timingSafeLoop_fst, orFold_eq_zero]
    constructor
    · rintro ⟨-, h⟩
      exact utf16Units_inj (zip_pointwise_eq _ _ hlen h)
    · intro h
      subst h
      exact ⟨rfl, zip_self_fst_eq_snd _⟩
  · rw [if_pos (by simpa using hlen)]
    simp only [Bool.false_eq_true, false_iff]
    intro h
    subst h
    exact hlen rfl

/-! ## Claims -/

/-- C6: `timingSafeEqual(a, b)` returns true if and only if `a` and `b` are
equal strings; when the lengths (UTF-16 code unit counts) differ it returns
false from the guard, before the loop runs; and when the lengths are equal
the loop inspects every character position — its iteration count equals the
common length — regardless of where the first differing character occurs,
accumulating XOR differences. -/
theorem c6_timing_safe_equal (a b : String) :
    (timingSafeEqual a b = true ↔ a = b) ∧
    ((utf16Units a).length ≠ (utf16Units b).length → timingSafeEqual a b = false) ∧
    ((utf16Units a).length = (utf16Units b).length →
      (timingSafeLoop (utf16Units a) (utf16Units b)).2 = (utf16Units a).length) := by
  refine ⟨timingSafeEqual_eq_iff a b, ?_, ?_⟩
  · intro hne
    unfold timingSafeEqual
    rw [if_pos hne]
  · intro heq
    unfold timingSafeLoop
    rw [timingSafeLoop_snd, List.length_zip, heq, Nat.min_self, Nat.zero_add]

/-- Witness for C6 at concrete inputs: equal strings compare true; strings
of different UTF-16 lengths compare false; on equal-length inputs that
differ in their first character the loop still inspects both positions. -/
theorem c6_timing_safe_equal_witness :
    timingSafeEqual "ab" "ab" = true ∧ timingSafeEqual "ab" "c" = false ∧
    (timingSafeLoop (utf16Units "ax") (utf16Units "bx")).2 = 2 :=
  ⟨(c6_timing_safe_equal "ab" "ab").1.mpr rfl,
   (c6_timing_safe_equal "ab" "c").2.1 (by decide),
   ((c6_timing_safe_equal "ax" "bx").2.2 (by decide)).trans (by decide)⟩

/-- C7: parsing of the raw `initData` string is total — `parseInitData`
(`new URLSearchParams`) yields an entry list for every raw string, so no
"cannot be parsed at all" rejection exists and the universally quantified
MalformedPayload half of the claim holds vacuously — and every parseable
input without a `hash` field is rejected with `HASH_MISSING`. -/
theorem c7_hash_missing (tok : String) (now : Int) (s : String)
    (htok : tok ≠ "") (hno : jsGet (parseInitData s) "hash" = none) :
    handleValidate tok now s = VResult.hashMissing := by
  unfold handleValidate
  rw [if_neg htok]
  unfold verifyParams
  rw [hno]

/-- Witness for C7: a raw string with fields but no `hash` is rejected with
`HASH_MISSING`. -/
theorem c7_hash_missing_witness :
    wTok ≠ "" ∧ jsGet (parseInitData "auth_date=1700000000&query_id=AA") "hash" = none ∧
    handleValidate wTok 1700000100 "auth_date=1700000000&query_id=AA" = VResult.hashMissing :=
  ⟨by decide, rfl,
   c7_hash_missing wTok 1700000100 "auth_date=1700000000&query_id=AA" (by decide) rfl⟩

/-- C4: for a payload whose hash is present (so the freshness check is
reached) and whose `auth_date` coerces to the number `a` — a missing or
empty field coerces via the substituted numeral `"0"` to `0` — the
validator rejects with `DATA_EXPIRED` exactly when `now - a > 300`.  In
particular `a = now - 300` passes the freshness check and `a = now - 301`
is rejected. -/
theorem c4_freshness_window (tok : String) (now : Int) (params : List (String × String))
    (h : String) (a : Int)
    (hh : jsGet params "hash" = some h) (hne : h ≠ "")
    (ha : jsNumber (authDateRaw params) = some a) :
    (verifyParams tok now params = VResult.dataExpired ↔ 300 < now - a) ∧
    (jsGet params "auth_date" = none → authDateRaw params = "0") := by
  constructor
  · unfold verifyParams
    rw [hh]
    dsimp only
    rw [if_neg hne, ha]
    by_cases hexp : (300 : Int) < now - a
    · simp [isExpired, VALID_AUTH_WINDOW, hexp]
    · rw [if_neg (by simp [isExpired, VALID_AUTH_WINDOW, hexp])]
      simp only [hexp, iff_false]
      split <;> simp
  · intro h0
    simp [authDateRaw, h0]

/-- Witness for C4 at the boundary: with `now = 1000000`, an `auth_date` of
`999699 = now - 301` is rejected with `DATA_EXPIRED`, and for an `auth_date`
of `999700 = now - 300` the `DATA_EXPIRED` outcome is equivalent to the
false proposition `300 < 300`. -/
theorem c4_freshness_window_witness :
    (verifyParams wTok 1000000 [("auth_date", "999699"), ("hash", "x")] = VResult.dataExpired) ∧
    (verifyParams wTok 1000000 [("auth_date", "999700"), ("hash", "x")] = VResult.dataExpired ↔
      (300 : Int) < 1000000 - 999700) :=
  ⟨(c4_freshness_window wTok 1000000 [("auth_date", "999699"), ("hash", "x")] "x" 999699
      rfl (by decide) rfl).1.mpr (by decide),
   (c4_freshness_window wTok 1000000 [("auth_date", "999700"), ("hash", "x")] "x" 999700
      rfl (by decide) rfl).1⟩

/-- Counterexample to C3: a payload whose signature does not match (its
hash is the forged `"deadbeef"`, shown unequal to the recomputed expected
signature) and whose `auth_date` is stale is rejected with `DATA_EXPIRED`,
not `INVALID_SIGNATURE`: the code checks freshness before comparing
signatures. -/
theorem c3_counterexample :
    timingSafeEqual "deadbeef"
      (hmacHex (telegramWebAppSecretKey wTok) (buildDataCheckString wParamsForged)) = false ∧
    verifyParams wTok 1700000500 wParamsForged = VResult.dataExpired ∧
    (VResult.dataExpired = VResult.invalidSignature → False) :=
  ⟨by decide, rfl, fun hcontra => VResult.noConfusion hcontra⟩

/-- C3 amended: freshness is checked first.  For a payload whose hash is
present, staleness yields `DATA_EXPIRED` regardless of the signature, and
for a fresh payload a signature mismatch yields `INVALID_SIGNATURE`. -/
theorem c3_freshness_before_signature (tok : String) (now : Int)
    (params : List (String × String)) (h : String)
    (hh : jsGet params "hash" = some h) (hne : h ≠ "") :
    (isExpired now (jsNumber (authDateRaw params)) = true →
      verifyParams tok now params = VResult.dataExpired) ∧
    (isExpired now (jsNumber (authDateRaw params)) = false →
      timingSafeEqual h (hmacHex (telegramWebAppSecretKey tok) (buildDataCheckString params)) = false →
      verifyParams tok now params = VResult.invalidSignature) := by
  constructor
  · intro hexp
    unfold verifyParams
    rw [hh]
    dsimp only
    rw [if_neg hne, hexp]
    simp
  · intro hfresh hsig
    unfold verifyParams
    rw [hh]
    dsimp only
    rw [if_neg hne, hfresh]
    simp [hsig]

/-- Witness for C3 (amended): the stale forged payload is rejected with
`DATA_EXPIRED`; the same forged payload while fresh is rejected with
`INVALID_SIGNATURE`. -/
theorem c3_freshness_before_signature_witness :
    verifyParams wTok 1700000500 wParamsForged = VResult.dataExpired ∧
    verifyParams wTok 1700000100 wParamsForged = VResult.invalidSignature :=
  ⟨(c3_freshness_before_signature wTok 1700000500 wParamsForged "deadbeef" rfl
      (by decide)).1 (by decide),
   (c3_freshness_before_signature wTok 1700000100 wParamsForged "deadbeef" rfl
      (by decide)).2 (by decide) (by decide)⟩

theorem timingSafeEqual_self (s : String) : timingSafeEqual s s = true :=
  (timingSafeEqual_eq_iff s s).mpr rfl

/-- Counterexample to C1: a payload whose hash field was computed by the
trusted signer over its canonical string (first conjunct), but whose
`auth_date` is stale relative to `now`, is rejected with `DATA_EXPIRED`:
`verify` does not return Accepted for every trusted-signed payload. -/
theorem c1_counterexample :
    jsGet wParamsA "hash" =
      some (hmacHex (telegramWebAppSecretKey wTok) (buildDataCheckString wParamsA)) ∧
    verifyParams wTok 1700000500 wParamsA = VResult.dataExpired ∧
    isAccepted (verifyParams wTok 1700000500 wParamsA) = false :=
  ⟨rfl, rfl, rfl⟩

/-- C1 amended: a payload whose hash field was computed by the trusted
signer over its canonical string with the shared secret, and which passes
the freshness window, is Accepted. -/
theorem c1_trusted_signer_accepted (tok : String) (now : Int)
    (params : List (String × String))
    (hh : jsGet params "hash" =
      some (hmacHex (telegramWebAppSecretKey tok) (buildDataCheckString params)))
    (hfresh : isExpired now (jsNumber (authDateRaw params)) = false) :
    verifyParams tok now params =
      VResult.ok (userClaims params) (jsNumber (authDateRaw params)) := by
  unfold verifyParams
  rw [hh]
  dsimp only
  rw [if_neg (hmacHex_ne_empty _ _), hfresh]
  simp [timingSafeEqual_self]

/-- Witness for C1 (amended): the concrete trusted-signed payload `wParamsA`
is Accepted while fresh, with its user claims and auth date. -/
theorem c1_trusted_signer_accepted_witness :
    verifyParams wTok 1700000100 wParamsA =
      VResult.ok (userClaims wParamsA) (jsNumber (authDateRaw wParamsA)) :=
  c1_trusted_signer_accepted wTok 1700000100 wParamsA rfl (by decide)

/-- C8: a payload that passes the hash, freshness and signature checks but
whose `user` field does not parse as JSON is Accepted with `user: null` —
the `JSON.parse` failure is caught and degrades the claims to null instead
of rejecting. -/
theorem c8_malformed_user_accepted_null (tok : String) (now : Int)
    (params : List (String × String)) (h us : String)
    (hh : jsGet params "hash" = some h) (hne : h ≠ "")
    (hfresh : isExpired now (jsNumber (authDateRaw params)) = false)
    (hsig : timingSafeEqual h
      (hmacHex (telegramWebAppSecretKey tok) (buildDataCheckString params)) = true)
    (hus : jsGet params "user" = some us) (hbad : jsonParse us = none) :
    verifyParams tok now params = VResult.ok none (jsNumber (authDateRaw params)) := by
  unfold verifyParams
  rw [hh]
  dsimp only
  rw [if_neg hne, hfresh]
  simp only [hsig, Bool.not_true, Bool.false_eq_true, if_false]
  have hclaims : userClaims params = none := by
    unfold userClaims
    rw [hus]
    dsimp only
    by_cases hemp : us = ""
    · rw [if_pos hemp]
    · rw [if_neg hemp, hbad]
  rw [hclaims]

/-- Witness for C8: the concrete trusted-signed payload `wParams8`, whose
`user` value (an unterminated object opener followed by `oops`) is not valid JSON, is Accepted with null user. -/
theorem c8_malformed_user_accepted_null_witness :
    jsonParse "\x7boops" = none ∧
    verifyParams wTok 1700000100 wParams8 = VResult.ok none (jsNumber (authDateRaw wParams8)) :=
  ⟨rfl, c8_malformed_user_accepted_null wTok 1700000100 wParams8 wHash8 "\x7boops"
    rfl (hmacHex_ne_empty _ _) (by decide) (by decide) rfl rfl⟩

/-- C9: every Accepted result with a non-null user was produced from the
parsed `user` JSON by the fixed allowlist extraction: each returned claim
field is one of `id`, `first_name`, `last_name`, `username`,
`language_code` with the value read off the parsed user object, and every
allowlisted field present on the parsed user object is returned; no other
field passes through. -/
theorem c9_user_claims_allowlist (tok : String) (now : Int)
    (params : List (String × String)) (claims : List (String × Json)) (ad : Option Int)
    (hok : verifyParams tok now params = VResult.ok (some claims) ad) :
    ∃ us u, jsGet params "user" = some us ∧ jsonParse us = some u ∧
      claims = extractUser u ∧
      (∀ p ∈ claims, p.1 ∈ userClaimFields ∧ jsLookup u p.1 = some p.2) ∧
      (∀ k ∈ userClaimFields, ∀ v, jsLookup u k = some v → (k, v) ∈ claims) := by
  have hcl : userClaims params = some claims := by
    unfold verifyParams at hok
    cases hh : jsGet params "hash" with
    | none =>
      rw [hh] at hok
      simp at hok
    | some h =>
      rw [hh] at hok
      dsimp only at hok
      by_cases h1 : h = ""
      · rw [if_pos h1] at hok
        simp at hok
      · rw [if_neg h1] at hok
        by_cases h2 : isExpired now (jsNumber (authDateRaw params)) = true
        · rw [if_pos h2] at hok
          simp at hok
        · rw [if_neg h2] at hok
          by_cases h3 : (!timingSafeEqual h
              (hmacHex (telegramWebAppSecretKey tok) (buildDataCheckString params))) = true
          · rw [if_pos h3] at hok
            simp at hok
          · rw [if_neg h3] at hok
            injection hok
  unfold userClaims at hcl
  cases hus : jsGet params "user" with
  | none =>
    rw [hus] at hcl
    simp at hcl
  | some us =>
    rw [hus] at hcl
    dsimp only at hcl
    by_cases hemp : us = ""
    · rw [if_pos hemp] at hcl
      simp at hcl
    · rw [if_neg hemp] at hcl
      cases hjp : jsonParse us with
      | none =>
        rw [hjp] at hcl
        simp at hcl
      | some u =>
        rw [hjp] at hcl
        dsimp only at hcl
        by_cases htr : jsTruthy u = true
        · rw [if_pos htr] at hcl
          have hce : claims = extractUser u := ((Option.some.injEq _ _).mp hcl).symm
          refine ⟨us, u, rfl, hjp, hce, ?_, ?_⟩
          · intro p hp
            rw [hce] at hp
            obtain ⟨k, hk, hfk⟩ := List.mem_filterMap.mp hp
            obtain ⟨v, hv, hpv⟩ := Option.map_eq_some'.mp hfk
            constructor
            · rw [← hpv]
              exact hk
            · rw [← hpv]
              exact hv
          · intro k hk v hv
            rw [hce]
            refine List.mem_filterMap.mpr ⟨k, hk, ?_⟩
            rw [hv]
            rfl
        · rw [if_neg htr] at hcl
          simp at hcl

/-- Witness for C9: the Accepted result for `wParamsA` carries exactly the
allowlisted fields of its user object (`id` and `first_name`; the
non-allowlisted `is_premium` is dropped). -/
theorem c9_user_claims_allowlist_witness :
    ∃ us u, jsGet wParamsA "user" = some us ∧ jsonParse us = some u ∧
      [("id", Json.num "1"), ("first_name", Json.str "Ann")] = extractUser u ∧
      (∀ p ∈ [("id", Json.num "1"), ("first_name", Json.str "Ann")],
        p.1 ∈ userClaimFields ∧ jsLookup u p.1 = some p.2) ∧
      (∀ k ∈ userClaimFields, ∀ v, jsLookup u k = some v →
        (k, v) ∈ [("id", Json.num "1"), ("first_name", Json.str "Ann")]) :=
  c9_user_claims_allowlist wTok 1700000100 wParamsA
    [("id", Json.num "1"), ("first_name", Json.str "Ann")]
    (jsNumber (authDateRaw wParamsA)) (by rfl)

theorem jsGet_set_of_ne (t : List (String × String)) :
    ∀ (i : Nat) (p : String × String) (v : String) (k : String),
      t.get? i = some p → ¬ p.1 = k → jsGet (t.set i (p.1, v)) k = jsGet t k := by
  induction t with
  | nil =>
    intro i p v k hi _
    simp at hi
  | cons q t ih =>
    intro i p v k hi hk
    cases i with
    | zero =>
      have hq : q = p := by simpa using hi
      subst hq
      unfold jsGet
      rw [List.set_cons_zero]
      simp only [List.find?]
      cases hbeq : q.1 == k with
      | true => exact absurd (by simpa using hbeq) hk
      | false => simp [hbeq]
    | succ n =>
      have hi2 : t.get? n = some p := by simpa using hi
      rw [List.set_cons_succ]
      unfold jsGet
      simp only [List.find?]
      cases hq : q.1 == k with
      | true => simp [hq]
      | false =>
        simp only [hq]
        exact ih n p v k hi2 hk

theorem jsGet_mutateValueChar (params : List (String × String)) (i j : Nat) (c : Char)
    (p : String × String) (k : String)
    (hi : params.get? i = some p) (hk : ¬ p.1 = k) :
    jsGet (mutateValueChar params i j c) k = jsGet params k := by
  unfold mutateValueChar
  rw [hi]
  exact jsGet_set_of_ne params i p (setCharAt p.2 j c) k hi hk

/-- Counterexample to C2: the trusted-signed payload `wParamsA` is Accepted
fresh; mutating the single character at position 0 of the `auth_date` value
(`"1700000000"` to `"0700000000"`, a non-`hash` field) makes the payload
stale, so it is rejected with `DATA_EXPIRED` — not `INVALID_SIGNATURE` as
the claim states — because freshness is checked before the signature. -/
theorem c2_counterexample :
    verifyParams wTok 1700000100 wParamsA =
      VResult.ok (userClaims wParamsA) (jsNumber (authDateRaw wParamsA)) ∧
    verifyParams wTok 1700000100 (mutateValueChar wParamsA 0 0 '0') = VResult.dataExpired ∧
    (VResult.dataExpired = VResult.invalidSignature → False) :=
  ⟨rfl, rfl, fun hcontra => VResult.noConfusion hcontra⟩

/-- C2 amended: mutating a single character of the value of a non-`hash`
field of a trusted-signed payload yields `INVALID_SIGNATURE`, provided the
mutated payload still passes the freshness window (otherwise `DATA_EXPIRED`
fires first) and the recomputed digest of the mutated canonical string
differs from the original digest (which can only fail on an HMAC-SHA256
collision). -/
theorem c2_mutation_rejected (tok : String) (now : Int) (params : List (String × String))
    (i j : Nat) (c : Char) (p : String × String)
    (hi : params.get? i = some p) (hk : ¬ p.1 = "hash")
    (horig : jsGet params "hash" =
      some (hmacHex (telegramWebAppSecretKey tok) (buildDataCheckString params)))
    (hfresh : isExpired now (jsNumber (authDateRaw (mutateValueChar params i j c))) = false)
    (hdiff : hmacHex (telegramWebAppSecretKey tok)
        (buildDataCheckString (mutateValueChar params i j c)) ≠
      hmacHex (telegramWebAppSecretKey tok) (buildDataCheckString params)) :
    verifyParams tok now (mutateValueChar params i j c) = VResult.invalidSignature := by
  have hh : jsGet (mutateValueChar params i j c) "hash" =
      some (hmacHex (telegramWebAppSecretKey tok) (buildDataCheckString params)) := by
    rw [jsGet_mutateValueChar params i j c p "hash" hi hk, horig]
  have hsig : timingSafeEqual
      (hmacHex (telegramWebAppSecretKey tok) (buildDataCheckString params))
      (hmacHex (telegramWebAppSecretKey tok)
        (buildDataCheckString (mutateValueChar params i j c))) = false := by
    cases hb : timingSafeEqual
        (hmacHex (telegramWebAppSecretKey tok) (buildDataCheckString params))
        (hmacHex (telegramWebAppSecretKey tok)
          (buildDataCheckString (mutateValueChar params i j c))) with
    | false => rfl
    | true => exact absurd ((timingSafeEqual_eq_iff _ _).mp hb).symm hdiff
  unfold verifyParams
  rw [hh]
  dsimp only
  rw [if_neg (hmacHex_ne_empty _ _), hfresh]
  simp [hsig]

/-- Witness for C2 (amended): mutating character 1 of the `query_id` value
of `wParamsA` (`"AA"` to `"AB"`) while the payload remains fresh yields
`INVALID_SIGNATURE`. -/
theorem c2_mutation_rejected_witness :
    verifyParams wTok 1700000100 (mutateValueChar wParamsA 1 1 'B') =
      VResult.invalidSignature :=
  c2_mutation_rejected wTok 1700000100 wParamsA 1 1 'B' ("query_id", "AA")
    rfl (by decide) rfl (by decide) (by decide)

/-- Counterexample to C5: the payloads `a=1, a=2` and `a=2, a=1` hold the
same multiset of key/value pairs (they are permutations of each other), yet
their canonical strings differ — the stable sort keeps equal-keyed pairs in
input order. -/
theorem c5_counterexample :
    [("a", "1"), ("a", "2")].Perm [("a", "2"), ("a", "1")] ∧
    buildDataCheckString [("a", "1"), ("a", "2")] ≠
      buildDataCheckString [("a", "2"), ("a", "1")] :=
  ⟨List.Perm.swap _ _ _, by decide⟩

theorem sortPairs_strict_sorted (l : List (String × String))
    (hnd : (l.map Prod.fst).Nodup) :
    List.Pairwise entryLt (List.insertionSort entryLe l) := by
  have hsorted : List.Sorted entryLe (List.insertionSort entryLe l) :=
    List.sorted_insertionSort entryLe l
  have hperm : (List.insertionSort entryLe l).Perm l := List.perm_insertionSort entryLe l
  have hnd2 : ((List.insertionSort entryLe l).map Prod.fst).Nodup :=
    ((hperm.map Prod.fst).nodup_iff).mpr hnd
  have hne : List.Pairwise (fun p q : String × String => p.1 ≠ q.1)
      (List.insertionSort entryLe l) := List.pairwise_map.mp hnd2
  refine List.Pairwise.imp ?_ (hsorted.and hne)
  intro a b hab
  rcases hab with ⟨hle, hne2⟩
  exact lt_of_le_of_ne hle (fun he => hne2 (utf16Units_inj he))

/-- C5 amended: for payloads whose keys (ignoring `hash`) are pairwise
distinct, the canonical string is invariant under permuting the input field
order.  (With duplicate keys the stable sort preserves the input order of
equal-keyed pairs, so only the order of distinct keys is normalized.) -/
theorem c5_canonical_perm_invariant (l1 l2 : List (String × String))
    (hperm : l1.Perm l2)
    (hnd : ((l1.filter (fun p => !(p.1 == "hash"))).map Prod.fst).Nodup) :
    buildDataCheckString l1 = buildDataCheckString l2 := by
  unfold buildDataCheckString
  dsimp only
  have hfp : (l1.filter (fun p => !(p.1 == "hash"))).Perm
      (l2.filter (fun p => !(p.1 == "hash"))) := hperm.filter _
  have hnd2 : ((l2.filter (fun p => !(p.1 == "hash"))).map Prod.fst).Nodup :=
    ((hfp.map Prod.fst).nodup_iff).mp hnd
  have hs1 := sortPairs_strict_sorted _ hnd
  have hs2 := sortPairs_strict_sorted _ hnd2
  have hsp : (List.insertionSort entryLe (l1.filter (fun p => !(p.1 == "hash")))).Perm
      (List.insertionSort entryLe (l2.filter (fun p => !(p.1 == "hash")))) :=
    (List.perm_insertionSort _ _).trans (hfp.trans (List.perm_insertionSort _ _).symm)
  have heq := List.eq_of_perm_of_sorted hsp hs1 hs2
  rw [heq]

/-- Witness for C5 (amended): two permutations of a two-field payload with
distinct keys canonicalize identically. -/
theorem c5_canonical_perm_invariant_witness :
    buildDataCheckString [("b", "2"), ("a", "1")] =
      buildDataCheckString [("a", "1"), ("b", "2")] :=
  c5_canonical_perm_invariant [("b", "2"), ("a", "1")] [("a", "1"), ("b", "2")]
    (List.Perm.swap _ _ _) (by decide)

theorem filter_key_orderedInsert (a : String × String) (l : List (String × String)) (k : String) :
    (List.orderedInsert entryLe a l).filter (fun p => p.1 == k) =
      (a :: l).filter (fun p => p.1 == k) := by
  induction l with
  | nil => rfl
  | cons b t ih =>
    simp only [List.orderedInsert]
    by_cases hab : entryLe a b
    · rw [if_pos hab]
    · rw [if_neg hab]
      simp only [List.filter] at ih ⊢
      cases hpa : a.1 == k with
      | true =>
        cases hpb : b.1 == k with
        | true =>
          have hk1 : a.1 = k := by simpa using hpa
          have hk2 : b.1 = k := by simpa using hpb
          exact absurd (le_of_eq (congrArg utf16Units (hk1.trans hk2.symm))) hab
        | false =>
          rw [hpa] at ih
          dsimp only at ih ⊢
          rw [ih]
      | false =>
        cases hpb : b.1 == k with
        | true =>
          rw [hpa] at ih
          dsimp only at ih ⊢
          rw [ih]
        | false =>
          rw [hpa] at ih
          dsimp only at ih ⊢
          rw [ih]

theorem filter_key_insertionSort (l : List (String × String)) (k : String) :
    (List.insertionSort entryLe l).filter (fun p => p.1 == k) =
      l.filter (fun p => p.1 == k) := by
  induction l with
  | nil => rfl
  | cons a t ih =>
    simp only [List.insertionSort]
    rw [filter_key_orderedInsert]
    simp only [List.filter]
    cases hpa : a.1 == k with
    | true =>
      dsimp only
      rw [ih]
    | false =>
      dsimp only
      exact ih

/-- C10: for a payload with duplicate keys, the canonical entry list — the
sorted non-`hash` pairs joined by `buildDataCheckString` — keeps every
occurrence of every key except `hash` (all `hash` pairs are dropped), with
equal-keyed pairs in their original input order (the stable sort leaves the
filter by any key unchanged) and as a whole a permutation of the non-`hash`
input pairs; while `jsGet` (the verifier's accessor for `hash`, `auth_date`
and `user`) reads the first occurrence of a key. -/
theorem c10_duplicate_keys (params : List (String × String)) (k : String) :
    (buildDataCheckString params = String.intercalate "\n"
      ((List.insertionSort entryLe (params.filter (fun p => !(p.1 == "hash")))).map
        (fun p => p.1 ++ "=" ++ p.2))) ∧
    ((List.insertionSort entryLe (params.filter (fun p => !(p.1 == "hash")))).filter
        (fun p => p.1 == k) =
      params.filter (fun p => p.1 == k && !(p.1 == "hash"))) ∧
    ((List.insertionSort entryLe (params.filter (fun p => !(p.1 == "hash")))).Perm
      (params.filter (fun p => !(p.1 == "hash")))) ∧
    (∀ (p : String × String) (l : List (String × String)),
      jsGet (p :: l) k = if p.1 = k then some p.2 else jsGet l k) := by
  refine ⟨rfl, ?_, List.perm_insertionSort _ _, ?_⟩
  · rw [filter_key_insertionSort]
    rw [List.filter_filter]
  · intro p l
    by_cases hpk : p.1 = k
    · simp [jsGet, List.find?, hpk]
    · have hb : (p.1 == k) = false := by simp [hpk]
      simp [jsGet, List.find?, hb, hpk]

/-- Witness for C10 at a concrete duplicate-key payload: both occurrences
of key `a` survive canonicalization in input order while the `hash` pair is
dropped. -/
theorem c10_duplicate_keys_witness :
    (List.insertionSort entryLe
        ([("a", "1"), ("hash", "h"), ("a", "2")].filter (fun p => !(p.1 == "hash")))).filter
      (fun p => p.1 == "a") = [("a", "1"), ("a", "2")] :=
  ((c10_duplicate_keys [("a", "1"), ("hash", "h"), ("a", "2")] "a").2.1).trans (by decide)
